import Mathlib

/-!
Shallow embedding of the martingale-xhs-reporter pipeline
(src/analyze.py and src/xhs_summary.py).

Modelling conventions:
* Python floats are modelled as rationals (ℚ); `float(...)` parsing of kline
  fields is absorbed into the `Kline` record fields.
* UTC instants are modelled as integers (ℤ); the external date parser
  `email.utils.parsedate_to_datetime` is modelled as an oracle returning an
  optional `ParsedDate` (a local instant plus an optional timezone offset).
* Network calls are modelled as oracles (`Except`-valued functions); functions
  that perform I/O additionally return an explicit event trace so that
  "which calls happened, in which order" is part of the embedding.
* Python string primitives `str.lower`, `str.strip`, substring containment and
  `str.endswith` are modelled character-list-wise (`strLower`, `strTrim`,
  `strContains`, `strEndsWith`).
-/

/-- Model of Python `str.lower()` (per-character lowering). -/
def strLower (s : String) : String := String.mk (s.data.map Char.toLower)

/-- Model of Python `str.strip()` (drop whitespace at both ends). -/
def strTrim (s : String) : String :=
  String.mk (((s.data.dropWhile Char.isWhitespace).reverse.dropWhile Char.isWhitespace).reverse)

/-- Model of the Python substring test `pat in hay`. -/
def strContains (hay pat : String) : Bool := decide (pat.data <:+: hay.data)

/-- Model of Python `s.endswith(pat)`. -/
def strEndsWith (s pat : String) : Bool := decide (pat.data <:+ s.data)

/-- Keyword list `NEWS_KEYWORDS` from analyze.py. -/
def NEWS_KEYWORDS : List String :=
  [("btc"), ("bitcoin"), ("eth"), ("ethereum"), ("bnb"), ("binance")]

/-- Model of one Binance kline row. The raw row is a positional list; the
fields kept here are `float(k[1])` (open), `float(k[2])` (high), `float(k[3])`
(low), `float(k[4])` (close), `float(k[5])` (base volume), `float(k[7])`
(quote volume), as read by `summarize_klines` in analyze.py. -/
structure Kline where
  openPrice : ℚ
  high : ℚ
  low : ℚ
  closePrice : ℚ
  baseVolume : ℚ
  quoteVolume : ℚ
deriving DecidableEq

/-- Embedding of the `SymbolSummary` dataclass of analyze.py. -/
structure SymbolSummary where
  symbol : String
  start_price : ℚ
  end_price : ℚ
  high : ℚ
  low : ℚ
  base_volume : ℚ
  quote_volume : ℚ
deriving DecidableEq

/-- Embedding of the `change` property: `end_price - start_price`. -/
def SymbolSummary.change (s : SymbolSummary) : ℚ := s.end_price - s.start_price

/-- Embedding of the `change_pct` property:
`(self.change / self.start_price) * 100 if self.start_price else 0.0`
(the Python truthiness test on a float is `start_price ≠ 0`). -/
def SymbolSummary.change_pct (s : SymbolSummary) : ℚ :=
  if s.start_price ≠ 0 then s.change / s.start_price * 100 else 0

/-- Embedding of `summarize_klines` (analyze.py).  The Python function indexes
`klines[0]` / `klines[-1]` and takes `max` / `min` / `sum` over the rows; on an
empty list it would raise, modelled here by `none`. -/
def summarize_klines (symbol : String) (klines : List Kline) : Option SymbolSummary :=
  match klines with
  | [] => none
  | k :: rest =>
    some
      { symbol := symbol
        start_price := k.openPrice
        end_price := (List.getLast (k :: rest) (List.cons_ne_nil k rest)).closePrice
        high := rest.foldl (fun acc b => max acc b.high) k.high
        low := rest.foldl (fun acc b => min acc b.low) k.low
        base_volume := ((k :: rest).map Kline.baseVolume).sum
        quote_volume := ((k :: rest).map Kline.quoteVolume).sum }

/-- Model of the value returned by `parsedate_to_datetime`: an instant in the
parsed calendar's local clock, plus its timezone offset when the parsed date
carried one (`tzinfo is None` is modelled by `none`). -/
structure ParsedDate where
  localTime : ℤ
  tzOffset : Option ℤ
deriving DecidableEq

/-- Normalization performed by `fetch_news`: a missing timezone is replaced by
UTC (`published.replace(tzinfo=utc)`); otherwise `astimezone(utc)` shifts the
local instant by its offset. -/
def normalizeUtc (p : ParsedDate) : ℤ :=
  match p.tzOffset with
  | none => p.localTime
  | some off => p.localTime - off

/-- Embedding of the `NewsItem` dataclass of analyze.py (`published` is the
normalized UTC instant). -/
structure NewsItem where
  source : String
  title : String
  link : String
  published : ℤ
deriving DecidableEq

/-- Model of one raw `<item>` element of a parsed RSS channel: the optional
texts of its `title`, `link`, `pubDate` and `description` children
(`findtext` returns `None` when the child is missing). -/
structure RawItem where
  title : Option String
  link : Option String
  pubDate : Option String
  description : Option String
deriving DecidableEq

/-- Model of the outcome of fetching and parsing one feed in `fetch_news`:
the fetch/parse failed or was blocked (feed skipped), the document has no
`channel` element (feed skipped), or a channel with its item list. -/
inductive FeedResult where
  | fetchFail
  | noChannel
  | channel (items : List RawItem)
deriving DecidableEq

/-- Embedding of the per-item body of the `fetch_news` loop: strip the texts,
parse the publish date (skip the item if parsing fails), normalize to UTC,
drop the item when `published < cutoff`, then require at least one keyword in
the lowercased `"{title} {description}"`. -/
def processItem (parseDate : String → Option ParsedDate) (source : String) (cutoff : ℤ)
    (item : RawItem) : Option NewsItem :=
  let title := strTrim (item.title.getD (""))
  let link := strTrim (item.link.getD (""))
  let pubText := strTrim (item.pubDate.getD (""))
  match parseDate pubText with
  | none => none
  | some p =>
    let published := normalizeUtc p
    if published < cutoff then none
    else
      let content := strLower (title ++ (" ") ++ item.description.getD (""))
      if NEWS_KEYWORDS.any (fun keyword => strContains content keyword) then
        some { source := source, title := title, link := link, published := published }
      else none

/-- Accumulation phase of `fetch_news`: feeds are processed in order; a feed
whose fetch/parse failed or that has no channel contributes nothing; the
retained items of each channel are appended in encounter order. -/
def collect_news (parseDate : String → Option ParsedDate) (cutoff : ℤ) :
    List (String × FeedResult) → List NewsItem
  | [] => []
  | (source, fr) :: rest =>
    (match fr with
     | FeedResult.channel its => its.filterMap (processItem parseDate source cutoff)
     | _ => []) ++ collect_news parseDate cutoff rest

/-- Stable descending insertion used to model
`items.sort(key=lambda i: i.published, reverse=True)` (Python sorts are
stable): the new element goes in front of the first element whose key is ≤
its own, hence after every earlier element with an equal key. -/
def insertDesc (x : NewsItem) : List NewsItem → List NewsItem
  | [] => [x]
  | y :: ys => if y.published ≤ x.published then x :: y :: ys else y :: insertDesc x ys

/-- Stable sort by `published`, descending (model of the final
`items.sort(..., reverse=True)` of `fetch_news`). -/
def sortDesc : List NewsItem → List NewsItem
  | [] => []
  | x :: xs => insertDesc x (sortDesc xs)

/-- Embedding of `fetch_news` (analyze.py): collect retained items from all
feeds in encounter order, then stably sort by published time, descending. -/
def fetch_news (parseDate : String → Option ParsedDate) (feeds : List (String × FeedResult))
    (cutoff : ℤ) : List NewsItem :=
  sortDesc (collect_news parseDate cutoff feeds)

/-- Zero left-padding used to render the fractional part of a fixed-point
number to exactly `d` digits. -/
def padZeros (d : Nat) (s : String) : String :=
  if d ≤ s.length then s else String.mk (List.replicate (d - s.length) ('0')) ++ s

/-- Model of the Python fixed-point float formatting (the %.2f / %.4f style
used by analyze.py) at rational precision: scale by `10 ^ d`, round half up,
and print the whole part, a dot, and `d` fractional digits.
(The bit-exact decimal rounding of binary doubles is abstracted; only
determinism and the printed shape matter to the verified claims.) -/
def formatFixed (d : Nat) (q : ℚ) : String :=
  let n : ℤ := Rat.floor (q * ((10 : ℚ) ^ d) + 1 / 2)
  let sign := if n < 0 then ("-") else ("")
  let m : ℕ := n.natAbs
  let base : ℕ := 10 ^ d
  sign ++ toString (m / base) ++ (".") ++ padZeros d (toString (m % base))

/-- Embedding of `format_symbol_summary` (analyze.py). -/
def format_symbol_summary (s : SymbolSummary) : String :=
  let change_sign := if 0 ≤ s.change then ("+") else ("-")
  s.symbol ++ (": ")
    ++ change_sign ++ formatFixed 2 (abs s.change)
    ++ (" (") ++ change_sign ++ formatFixed 2 (abs s.change_pct) ++ ("%) ")
    ++ ("start=") ++ formatFixed 2 s.start_price
    ++ (" end=") ++ formatFixed 2 s.end_price
    ++ (" high=") ++ formatFixed 2 s.high
    ++ (" low=") ++ formatFixed 2 s.low
    ++ (" volume=") ++ formatFixed 4 s.base_volume
    ++ (" (") ++ formatFixed 2 s.quote_volume ++ (" quote)")

/-- Embedding of `format_news` (analyze.py).  Rendering of a UTC instant by
`strftime("%Y-%m-%d %H:%MZ")` is modelled by the pure formatter `fmtTime`
supplied by the environment. -/
def format_news (fmtTime : ℤ → String) (items : List NewsItem) : String :=
  if items.isEmpty then ("No matching headlines in the last 24h.")
  else
    String.intercalate ("\n")
      ((List.enumFrom 1 items).map (fun p =>
        toString p.1 ++ (". [") ++ p.2.source ++ ("] ") ++ fmtTime p.2.published
          ++ (" - ") ++ p.2.title ++ (" (") ++ p.2.link ++ (")")))

/-- Embedding of `build_prompt` (xhs_summary.py): the fixed instruction
template with the snapshot text and the market block interpolated. -/
def build_prompt (snapshot : String) (market_block : String) : String :=
  ("以下是我的日常收益/持仓快照和最近24小时的市场&新闻摘要，")
    ++ ("请写一段约200-260字的中文小红书风格总结，")
    ++ ("要求口语化、短句、多感叹号，第一人称带一点小骄傲和轻松，兼顾行情情绪、风险提示和我的仓位表现，")
    ++ ("不要逐条罗列数据、避免刻板数字堆砌，结尾给一个轻提示。务必生成完整文本，不要中途截断。\n\n")
    ++ ("参考以下示例语气（不要直接复制内容，但保持这种风格）：\n")
    ++ ("小红书摘要 20251204\n")
    ++ ("小手一抖，收益到手！今天又是稳稳的小确幸～\n")
    ++ ("刚瞄了眼账户，总资产终于站上 1011 USDT，小赚 8.1% 已实现收益，年化 12.57% 稳稳的幸福！今天 BTC 在 93k 附近小幅震荡，ETH 站上 3188，BNB 也小步慢跑到了 920，SOL 144 左右横盘。我今天继续做 T，低吸高抛薅点小羊毛，ETH、BTC、BNB、SOL 都有浮盈，小日子美滋滋～\n")
    ++ ("最近市场情绪总体偏淡，没啥大新闻，波动也不大，适合边走边看。不过切记：加密有风险，追涨杀跌要慎重！我这边仓位控制得比较轻，主打一个稳字当头～\n")
    ++ ("小提醒：行情清淡时，别忘了多看看活期理财，稳稳拿点利息也是香～\n\n")
    ++ ("输出格式：纯文本，不要Markdown、不加粗、不用标题或列表符号。\n\n")
    ++ ("【持仓快照】\n")
    ++ snapshot ++ ("\n\n")
    ++ ("不要显示字数统计。\n\n")
    ++ ("Simple Earn翻译成活期理财")
    ++ ("【市场与新闻】\n")
    ++ market_block ++ ("\n")

/-- Model of one entry of the OpenRouter models listing, as consumed by
`is_free_model`: the optional `id` string and the optional `pricing` values
for the keys `prompt` / `completion` / `request`.  The outer `Option` is key
presence; the inner `Option` is whether `float(str(value))` parses. -/
structure RawModel where
  id : Option String
  pricingPrompt : Option (Option ℚ)
  pricingCompletion : Option (Option ℚ)
  pricingRequest : Option (Option ℚ)
deriving DecidableEq

/-- Price values collected by `is_free_model`: present keys whose values
parse as floats, in the fixed key order prompt, completion, request. -/
def rawPrices (m : RawModel) : List ℚ :=
  ([m.pricingPrompt, m.pricingCompletion, m.pricingRequest].filterMap id).filterMap id

/-- Embedding of `is_free_model` (xhs_summary.py): all collected prices are
zero (and at least one was collected), or the id ends in the free suffix. -/
def is_free_model (m : RawModel) : Bool :=
  (!(rawPrices m).isEmpty && (rawPrices m).all (fun p => p == 0))
    || strEndsWith (m.id.getD ("")) (":free")

/-- Filtering/deduplication loop of `fetch_free_models`: keep ids of
free-eligible models, skipping absent/empty ids and ids already seen,
preserving first-seen order (`seen` models the Python `set`). -/
def dedupFree : List RawModel → List String → List String
  | [], _ => []
  | m :: rest, seen =>
    if is_free_model m then
      match m.id with
      | some mid =>
        if !(mid == ("")) && !(seen.contains mid) then
          mid :: dedupFree rest (seen ++ [mid])
        else dedupFree rest seen
      | none => dedupFree rest seen
    else dedupFree rest seen

/-- Message raised inside a discovery attempt when the filtered list is
empty. -/
def noFreeModelsMessage : String := ("未找到可用的免费模型")

/-- Message prefix of the fatal error raised after all discovery attempts
fail. -/
def discoveryExhaustedPrefix : String := ("Failed to fetch OpenRouter models after retries: ")

/-- One discovery attempt of `fetch_free_models`: the HTTP GET + JSON parse is
the oracle (its error is the caught exception text); on success the payload is
filtered and deduplicated, and an empty result raises `noFreeModelsMessage`
inside the same try block. -/
def fetch_attempt (oracle : Nat → Except String (List RawModel)) (attempt : Nat) :
    Except String (List String) :=
  match oracle attempt with
  | Except.error e => Except.error e
  | Except.ok models =>
    let free := dedupFree models []
    if free.isEmpty then Except.error noFreeModelsMessage else Except.ok free

/-- Observable events of `fetch_free_models`: the HTTP attempt itself, the
retry warning log (1-based attempt number, caught error, computed wait), and
the `time.sleep(wait)` call. -/
inductive FetchEvent where
  | httpAttempt (n : Nat)
  | logRetry (humanAttempt : Nat) (err : String) (wait : Nat)
  | sleep (wait : Nat)
deriving DecidableEq

/-- Loop body of `fetch_free_models` over the remaining iterations of
`range(3)`: on failure the error is logged with wait `2 ^ attempt` and slept,
then the next attempt runs; when iterations are exhausted the fatal error is
raised with the last caught exception. -/
def fetch_free_models_go (oracle : Nat → Except String (List RawModel)) (lastExc : String) :
    Nat → Nat → List FetchEvent × Except String (List String)
  | _, 0 => ([], Except.error (discoveryExhaustedPrefix ++ lastExc))
  | attempt, remaining + 1 =>
    match fetch_attempt oracle attempt with
    | Except.ok free => ([FetchEvent.httpAttempt attempt], Except.ok free)
    | Except.error e =>
      let wait := 2 ^ attempt
      let p := fetch_free_models_go oracle e (attempt + 1) remaining
      (FetchEvent.httpAttempt attempt :: FetchEvent.logRetry (attempt + 1) e wait
        :: FetchEvent.sleep wait :: p.1, p.2)

/-- Embedding of `fetch_free_models` (xhs_summary.py): `for attempt in
range(3)` with the loop body above (`last_exc` starts as Python `None`,
unreachable in the final message since at least one attempt always runs). -/
def fetch_free_models (oracle : Nat → Except String (List RawModel)) :
    List FetchEvent × Except String (List String) :=
  fetch_free_models_go oracle ("None") 0 3

/-- Truncation error message raised by `call_with_fallback` when
`finish_reason == "length"`. -/
def truncatedMessage : String := ("模型输出被截断(finish_reason=length)")

/-- Loop of `call_with_fallback` over the remaining candidates, carrying the
accumulated per-candidate failure reasons.  The completion call
`call_openrouter(api_key, model, prompt)` is the oracle `call` (credential and
prompt are fixed inside it); its `Except.error` is the caught exception text,
its `Except.ok` the `(content, finish_reason)` pair.  The first component of
the result is the trace of models actually called, in order. -/
def call_with_fallback_go (call : String → Except String (String × String)) :
    List String → List String → List String × Except String (String × String)
  | [], errors => ([], Except.error (String.intercalate ("; ") errors))
  | m :: rest, errors =>
    match call m with
    | Except.error e =>
      let p := call_with_fallback_go call rest (errors ++ [m ++ (": ") ++ e])
      (m :: p.1, p.2)
    | Except.ok (content, finish_reason) =>
      if finish_reason == ("length") then
        let p := call_with_fallback_go call rest (errors ++ [m ++ (": ") ++ truncatedMessage])
        (m :: p.1, p.2)
      else (m :: [], Except.ok (m, content))

/-- Embedding of `call_with_fallback` (xhs_summary.py), starting from an empty
error list; returns the called-model trace and the outcome. -/
def call_with_fallback (call : String → Except String (String × String)) (models : List String) :
    List String × Except String (String × String) :=
  call_with_fallback_go call models []

/-- Success test on one candidate's completion outcome: no exception and a
finish reason other than the truncation marker. -/
def isGood (r : Except String (String × String)) : Bool :=
  match r with
  | Except.ok (_, finish_reason) => !(finish_reason == ("length"))
  | Except.error _ => false

/-- Failure reason recorded for one candidate (`f"{model}: {exc}"`): the
caught exception text, or the truncation message for a truncated success. -/
def failMsg (m : String) (r : Except String (String × String)) : String :=
  match r with
  | Except.error e => m ++ (": ") ++ e
  | Except.ok _ => m ++ (": ") ++ truncatedMessage

/-- Content extractor for a successful completion outcome. -/
def okContent (r : Except String (String × String)) : String :=
  match r with
  | Except.ok (content, _) => content
  | Except.error _ => ("")

/-- Observable outbound calls of one run of `main` (xhs_summary.py), used to
state which network (or snapshot-read) operations occur and in which order. -/
inductive NetEvent where
  | snapshotFetch
  | klineFetch (symbol : String)
  | feedFetch (source : String)
  | discoveryAttempt (n : Nat)
  | completionCall (model : String)
  | uploadCall
  | notifyCall
deriving DecidableEq

/-- Oracles standing for the external world of one run: the snapshot read
(`read_snapshot` outcome, its error being the raised message), the per-symbol
kline fetch, the parsed feed responses, the date parser, the per-attempt model
discovery response, and the completion call (model identifier to outcome, with
credential and prompt fixed inside). -/
structure Oracles where
  snapshot : Except String String
  klines : String → Except String (List Kline)
  feeds : List (String × FeedResult)
  parseDate : String → Option ParsedDate
  modelsAttempt : Nat → Except String (List RawModel)
  call : String → Except String (String × String)

/-- Arguments and configuration of one run of `main`, after argument parsing
and state-file loading: the credential, the dry-run flag, the optional
explicit model, the symbol list, the suppress flags, and whether the loaded
state document carries bark-notify and R2-state sections. -/
structure Args where
  apiKey : Option String
  dryRun : Bool
  model : Option String
  symbols : List String
  noUpload : Bool
  noNotify : Bool
  stateHasBark : Bool
  stateHasState : Bool

/-- Error message of the pre-flight credential check in `main`. -/
def missingKeyMessage : String :=
  ("Missing OpenRouter API key. Set OPENROUTER_API_KEY or --api-key.")

/-- Embedding of `build_market_block` (xhs_summary.py): fetch and summarize
each symbol in order (failures are logged and skipped), then fetch the news,
and assemble the text block.  `windowHeader` is the strftime-rendered window
header and `fmtTime` the news timestamp formatter, both supplied by the
environment. -/
def build_market_block_run (o : Oracles) (symbols : List String) (windowHeader : String)
    (fmtTime : ℤ → String) (cutoff : ℤ) : List NetEvent × String :=
  let summaries := symbols.filterMap (fun sym =>
    match o.klines sym with
    | Except.ok ks => summarize_klines sym ks
    | Except.error _ => none)
  let marketLines :=
    if summaries.isEmpty then [("Market move: unavailable")]
    else ("Market move (last 24h):") :: summaries.map (fun s => ("- ") ++ format_symbol_summary s)
  let newsItems := fetch_news o.parseDate o.feeds cutoff
  let allLines := marketLines ++ [("\nNews (last 24h, keyword-filtered):"), format_news fmtTime newsItems]
  (symbols.map NetEvent.klineFetch ++ o.feeds.map (fun p => NetEvent.feedFetch p.1),
    windowHeader ++ ("\n") ++ String.intercalate ("\n") allLines)

/-- Completion-and-sink tail of `main`: run the fallback over the candidate
list; on success print the plain text, upload when state config exists and
uploads are not suppressed, and notify when bark config exists and notify is
not suppressed (exit 0); on exhaustion warn, best-effort notify, exit 1. -/
def runCompletion (o : Oracles) (a : Args) (evs : List NetEvent) (models : List String) :
    List NetEvent × Except String ℤ :=
  let r := call_with_fallback o.call models
  let cevs := r.1.map NetEvent.completionCall
  match r.2 with
  | Except.ok _ =>
    let uevs := if a.stateHasState && !a.noUpload then [NetEvent.uploadCall] else []
    let nevs := if a.stateHasBark && !a.noNotify then [NetEvent.notifyCall] else []
    (evs ++ cevs ++ uevs ++ nevs, Except.ok 0)
  | Except.error _ =>
    let nevs := if a.stateHasBark && !a.noNotify then [NetEvent.notifyCall] else []
    (evs ++ cevs ++ nevs, Except.ok 1)

/-- Embedding of `main` (xhs_summary.py) at event granularity.  The result is
the trace of outbound calls plus either `Except.ok exitCode` or
`Except.error msg` for a raised `SystemExit(msg)` (which terminates the
process with a nonzero status).  The pre-flight credential check is the first
action; it precedes the snapshot read, the market/news fetches, discovery and
completion. -/
def main_run (o : Oracles) (a : Args) (windowHeader : String) (fmtTime : ℤ → String)
    (cutoff : ℤ) : List NetEvent × Except String ℤ :=
  if a.apiKey.isNone && !a.dryRun then
    ([], Except.error missingKeyMessage)
  else
    match o.snapshot with
    | Except.error e => ([NetEvent.snapshotFetch], Except.error e)
    | Except.ok snapshot_text =>
      let mb := build_market_block_run o a.symbols windowHeader fmtTime cutoff
      let _prompt := build_prompt snapshot_text mb.2
      let evs := NetEvent.snapshotFetch :: mb.1
      if a.dryRun then (evs, Except.ok 0)
      else
        match a.model with
        | some m => runCompletion o a evs [m]
        | none =>
          let d := fetch_free_models o.modelsAttempt
          let devs := d.1.filterMap (fun e =>
            match e with
            | FetchEvent.httpAttempt n => some (NetEvent.discoveryAttempt n)
            | _ => none)
          match d.2 with
          | Except.error _ =>
            let nevs := if a.stateHasBark && !a.noNotify then [NetEvent.notifyCall] else []
            (evs ++ devs ++ nevs, Except.ok 1)
          | Except.ok models => runCompletion o a (evs ++ devs) models

/-! Helper lemmas about left folds with `max` / `min`, used to characterize
the high/low fields of `summarize_klines`. -/

theorem foldl_max_mem (l : List ℚ) (a : ℚ) : l.foldl max a ∈ a :: l := by
  induction l generalizing a with
  | nil => simp
  | cons b t ih =>
    have h := ih (max a b)
    simp only [List.foldl_cons]
    rcases List.mem_cons.mp h with h1 | h1
    · rcases max_choice a b with hh | hh
      · exact List.mem_cons.mpr (Or.inl (h1.trans hh))
      · exact List.mem_cons_of_mem _ (List.mem_cons.mpr (Or.inl (h1.trans hh)))
    · exact List.mem_cons_of_mem _ (List.mem_cons_of_mem _ h1)

theorem le_foldl_max (l : List ℚ) (a : ℚ) : ∀ x ∈ a :: l, x ≤ l.foldl max a := by
  induction l generalizing a with
  | nil => intro x hx; simp only [List.mem_cons, List.mem_nil_iff, or_false] at hx; simp [hx]
  | cons b t ih =>
    intro x hx
    simp only [List.foldl_cons]
    rcases List.mem_cons.mp hx with h1 | h1
    · subst h1
      exact le_trans (le_max_left x b) (ih (max x b) _ (List.mem_cons_self _ _))
    · rcases List.mem_cons.mp h1 with h2 | h2
      · subst h2
        exact le_trans (le_max_right a x) (ih (max a x) _ (List.mem_cons_self _ _))
      · exact ih (max a b) x (List.mem_cons_of_mem _ h2)

theorem foldl_min_mem (l : List ℚ) (a : ℚ) : l.foldl min a ∈ a :: l := by
  induction l generalizing a with
  | nil => simp
  | cons b t ih =>
    have h := ih (min a b)
    simp only [List.foldl_cons]
    rcases List.mem_cons.mp h with h1 | h1
    · rcases min_choice a b with hh | hh
      · exact List.mem_cons.mpr (Or.inl (h1.trans hh))
      · exact List.mem_cons_of_mem _ (List.mem_cons.mpr (Or.inl (h1.trans hh)))
    · exact List.mem_cons_of_mem _ (List.mem_cons_of_mem _ h1)

theorem foldl_min_le (l : List ℚ) (a : ℚ) : ∀ x ∈ a :: l, l.foldl min a ≤ x := by
  induction l generalizing a with
  | nil => intro x hx; simp only [List.mem_cons, List.mem_nil_iff, or_false] at hx; simp [hx]
  | cons b t ih =>
    intro x hx
    simp only [List.foldl_cons]
    rcases List.mem_cons.mp hx with h1 | h1
    · subst h1
      exact le_trans (ih (min x b) _ (List.mem_cons_self _ _)) (min_le_left x b)
    · rcases List.mem_cons.mp h1 with h2 | h2
      · subst h2
        exact le_trans (ih (min a x) _ (List.mem_cons_self _ _)) (min_le_right a x)
      · exact ih (min a b) x (List.mem_cons_of_mem _ h2)

/-! Helper lemmas about the stable descending sort and the collection phase
of the news pipeline. -/

theorem mem_insertDesc (x z : NewsItem) (l : List NewsItem) :
    z ∈ insertDesc x l ↔ z = x ∨ z ∈ l := by
  induction l with
  | nil => simp [insertDesc]
  | cons y ys ih =>
    simp only [insertDesc]
    split
    · simp [List.mem_cons]
    · simp only [List.mem_cons, ih]
      tauto

theorem mem_sortDesc (z : NewsItem) (l : List NewsItem) : z ∈ sortDesc l ↔ z ∈ l := by
  induction l with
  | nil => simp [sortDesc]
  | cons x xs ih => simp [sortDesc, mem_insertDesc, ih]

theorem insertDesc_sorted (x : NewsItem) (l : List NewsItem)
    (h : l.Pairwise (fun a b => b.published ≤ a.published)) :
    (insertDesc x l).Pairwise (fun a b => b.published ≤ a.published) := by
  induction l with
  | nil => simp [insertDesc]
  | cons y ys ih =>
    rcases List.pairwise_cons.mp h with ⟨hy, hys⟩
    simp only [insertDesc]
    split
    · rename_i hle
      refine List.pairwise_cons.mpr ⟨?_, h⟩
      intro z hz
      rcases List.mem_cons.mp hz with rfl | hz2
      · exact hle
      · exact le_trans (hy z hz2) hle
    · rename_i hgt
      refine List.pairwise_cons.mpr ⟨?_, ih hys⟩
      intro z hz
      rcases (mem_insertDesc x z ys).mp hz with rfl | hz2
      · exact le_of_lt (lt_of_not_le hgt)
      · exact hy z hz2

theorem sortDesc_sorted (l : List NewsItem) :
    (sortDesc l).Pairwise (fun a b => b.published ≤ a.published) := by
  induction l with
  | nil => simp [sortDesc]
  | cons x xs ih => exact insertDesc_sorted x (sortDesc xs) ih

theorem filter_insertDesc (t : ℤ) (x : NewsItem) (l : List NewsItem) :
    (insertDesc x l).filter (fun n => n.published == t) =
      if x.published == t then x :: l.filter (fun n => n.published == t)
      else l.filter (fun n => n.published == t) := by
  induction l with
  | nil =>
    by_cases hx : x.published = t <;> simp [insertDesc, List.filter_cons, hx]
  | cons y ys ih =>
    simp only [insertDesc]
    split
    · rename_i hle
      by_cases hx : x.published = t <;> simp [List.filter_cons, hx]
    · rename_i hgt
      by_cases hx : x.published = t
      · have hyt : ¬ (y.published = t) := by
          have hxy : x.published < y.published := lt_of_not_le hgt
          omega
        simp [List.filter_cons, ih, hx, hyt]
      · simp [List.filter_cons, ih, hx]

theorem filter_sortDesc (t : ℤ) (l : List NewsItem) :
    (sortDesc l).filter (fun n => n.published == t) = l.filter (fun n => n.published == t) := by
  induction l with
  | nil => rfl
  | cons x xs ih =>
    simp only [sortDesc, filter_insertDesc, ih, List.filter_cons]

theorem mem_collect_news (pd : String → Option ParsedDate) (cutoff : ℤ)
    (feeds : List (String × FeedResult)) (n : NewsItem) :
    n ∈ collect_news pd cutoff feeds ↔
      ∃ src its, (src, FeedResult.channel its) ∈ feeds
        ∧ ∃ it ∈ its, processItem pd src cutoff it = some n := by
  induction feeds with
  | nil => simp [collect_news]
  | cons f rest ih =>
    obtain ⟨src, fr⟩ := f
    cases fr with
    | fetchFail =>
      simp only [collect_news, List.nil_append, ih]
      constructor
      · rintro ⟨s2, its, hmem, hit⟩
        exact ⟨s2, its, List.mem_cons_of_mem _ hmem, hit⟩
      · rintro ⟨s2, its, hmem, hit⟩
        rcases List.mem_cons.mp hmem with heq | hmem2
        · exact absurd heq (by simp)
        · exact ⟨s2, its, hmem2, hit⟩
    | noChannel =>
      simp only [collect_news, List.nil_append, ih]
      constructor
      · rintro ⟨s2, its, hmem, hit⟩
        exact ⟨s2, its, List.mem_cons_of_mem _ hmem, hit⟩
      · rintro ⟨s2, its, hmem, hit⟩
        rcases List.mem_cons.mp hmem with heq | hmem2
        · exact absurd heq (by simp)
        · exact ⟨s2, its, hmem2, hit⟩
    | channel its0 =>
      simp only [collect_news, List.mem_append, List.mem_filterMap, ih]
      constructor
      · rintro (⟨it, hit, hpi⟩ | ⟨s2, its, hmem, hit⟩)
        · exact ⟨src, its0, List.mem_cons_self _ _, it, hit, hpi⟩
        · exact ⟨s2, its, List.mem_cons_of_mem _ hmem, hit⟩
      · rintro ⟨s2, its, hmem, it, hit, hpi⟩
        rcases List.mem_cons.mp hmem with heq | hmem2
        · obtain ⟨h1, h2⟩ := Prod.mk.injEq .. ▸ heq
          cases heq
          exact Or.inl ⟨it, by simpa using hit, by simpa using hpi⟩
        · exact Or.inr ⟨s2, its, hmem2, it, hit, hpi⟩

/-- Keyword condition checked by `processItem` on one raw item. -/
def itemMatchesKeyword (item : RawItem) : Bool :=
  NEWS_KEYWORDS.any (fun keyword =>
    strContains (strLower (strTrim (item.title.getD ("")) ++ (" ") ++ item.description.getD (""))) keyword)

theorem processItem_isSome_iff (pd : String → Option ParsedDate) (src : String) (cutoff : ℤ)
    (item : RawItem) :
    (processItem pd src cutoff item).isSome = true ↔
      ∃ p, pd (strTrim (item.pubDate.getD (""))) = some p
        ∧ cutoff ≤ normalizeUtc p ∧ itemMatchesKeyword item = true := by
  unfold processItem itemMatchesKeyword
  cases hp : pd (strTrim (item.pubDate.getD (""))) with
  | none => simp [hp]
  | some p =>
    simp only [hp, Option.some.injEq]
    by_cases hc : normalizeUtc p < cutoff
    · simp only [if_pos hc, Option.isSome_none, Bool.false_eq_true, false_iff]
      rintro ⟨q, rfl, hle, _⟩
      omega
    · simp only [if_neg hc]
      by_cases hk : NEWS_KEYWORDS.any (fun keyword =>
          strContains (strLower (strTrim (item.title.getD ("")) ++ (" ") ++ item.description.getD (""))) keyword) = true
      · simp only [if_pos hk, Option.isSome_some, true_iff]
        exact ⟨p, rfl, by omega, hk⟩
      · simp only [if_neg hk, Option.isSome_none, Bool.false_eq_true, false_iff]
        rintro ⟨q, hq, _, hk2⟩
        cases hq
        exact hk hk2

theorem processItem_cutoff_le (pd : String → Option ParsedDate) (src : String) (cutoff : ℤ)
    (item : RawItem) (n : NewsItem) (h : processItem pd src cutoff item = some n) :
    cutoff ≤ n.published := by
  simp only [processItem] at h
  cases hp : pd (strTrim (item.pubDate.getD (""))) with
  | none => rw [hp] at h; cases h
  | some p =>
    rw [hp] at h
    simp only at h
    by_cases hc : normalizeUtc p < cutoff
    · rw [if_pos hc] at h; cases h
    · rw [if_neg hc] at h
      by_cases hk : NEWS_KEYWORDS.any (fun keyword =>
          strContains (strLower (strTrim (item.title.getD ("")) ++ (" ") ++ item.description.getD (""))) keyword) = true
      · rw [if_pos hk] at h
        cases h
        simpa using Int.not_lt.mp hc
      · rw [if_neg hk] at h; cases h

/-- Characterization of the fallback loop of `call_with_fallback`: relative to
an arbitrary already-accumulated error list, the loop returns the first good
candidate (trace = all failing candidates before it, plus itself), or, when no
candidate is good, exhausts the whole list and joins all failure reasons. -/
theorem call_with_fallback_go_spec (call : String → Except String (String × String))
    (models : List String) : ∀ acc : List String,
    (∀ m, models.find? (fun x => isGood (call x)) = some m →
      call_with_fallback_go call models acc =
        (models.takeWhile (fun x => !isGood (call x)) ++ [m], Except.ok (m, okContent (call m))))
    ∧ (models.find? (fun x => isGood (call x)) = none →
      call_with_fallback_go call models acc =
        (models, Except.error (String.intercalate ("; ")
          (acc ++ models.map (fun x => failMsg x (call x)))))) := by
  induction models with
  | nil =>
    intro acc
    constructor
    · intro m h; cases h
    · intro _; simp [call_with_fallback_go]
  | cons hd tl ih =>
    intro acc
    constructor
    · intro m h
      cases hg : isGood (call hd) with
      | true =>
        simp only [List.find?_cons, hg, Option.some.injEq] at h
        cases h
        cases hcall : call hd with
        | error e => rw [hcall] at hg; cases hg
        | ok pr =>
          obtain ⟨content, finish_reason⟩ := pr
          have hfr : (finish_reason == ("length")) = false := by
            rw [hcall] at hg
            simpa [isGood] using hg
          simp [call_with_fallback_go, hcall, hfr, List.takeWhile_cons, hg, isGood, okContent]
      | false =>
        simp only [List.find?_cons, hg] at h
        have htw : (hd :: tl).takeWhile (fun x => !isGood (call x)) =
            hd :: tl.takeWhile (fun x => !isGood (call x)) := by
          simp [List.takeWhile_cons, hg]
        cases hcall : call hd with
        | error e =>
          have hrec := (ih (acc ++ [hd ++ (": ") ++ e])).1 m h
          simp [call_with_fallback_go, hcall, hrec, htw]
        | ok pr =>
          obtain ⟨content, finish_reason⟩ := pr
          have hfr : (finish_reason == ("length")) = true := by
            rw [hcall] at hg
            simpa [isGood] using hg
          have hrec := (ih (acc ++ [hd ++ (": ") ++ truncatedMessage])).1 m h
          simp [call_with_fallback_go, hcall, hfr, hrec, htw]
    · intro h
      have hg : isGood (call hd) = false := by
        cases hgg : isGood (call hd)
        · rfl
        · simp [List.find?_cons, hgg] at h
      rw [show List.find? (fun x => isGood (call x)) (hd :: tl)
            = List.find? (fun x => isGood (call x)) tl from by
          simp [List.find?_cons, hg]] at h
      cases hcall : call hd with
      | error e =>
        have hrec := (ih (acc ++ [hd ++ (": ") ++ e])).2 h
        simp [call_with_fallback_go, hcall, hrec, failMsg, List.append_assoc]
      | ok pr =>
        obtain ⟨content, finish_reason⟩ := pr
        have hfr : (finish_reason == ("length")) = true := by
          rw [hcall] at hg
          simpa [isGood] using hg
        have hrec := (ih (acc ++ [hd ++ (": ") ++ truncatedMessage])).2 h
        simp [call_with_fallback_go, hcall, hfr, hrec, failMsg, List.append_assoc]

/-- C1: `call_with_fallback` iterates candidates in list order, records as
failed any candidate whose call raises or whose finish reason is the
truncation marker "length", returns the model identifier and text of the
first candidate that neither errors nor truncates and stops immediately
(trace = the failing prefix plus that candidate), and when every candidate
fails raises an error joining every per-candidate failure reason in attempt
order. -/
theorem c1_fallback_first_good_or_joined_errors
    (call : String → Except String (String × String)) (models : List String) :
    (∀ m, models.find? (fun x => isGood (call x)) = some m →
      call_with_fallback call models =
        (models.takeWhile (fun x => !isGood (call x)) ++ [m], Except.ok (m, okContent (call m))))
    ∧ (models.find? (fun x => isGood (call x)) = none →
      call_with_fallback call models =
        (models, Except.error (String.intercalate ("; ")
          (models.map (fun x => failMsg x (call x)))))) := by
  have h := call_with_fallback_go_spec call models []
  simpa [call_with_fallback] using h

/-- Completion oracle used as the concrete input of the C1 witness: candidate
A raises, candidate B truncates, candidate C succeeds. -/
def callW : String → Except String (String × String) := fun m =>
  if m == ("A") then Except.error ("boom")
  else if m == ("B") then Except.ok (("truncated text"), ("length"))
  else Except.ok (("full text"), ("stop"))

/-- Witness for C1 at the concrete candidate list [A, B, C]. -/
theorem c1_witness :
    [("A"), ("B"), ("C")].find? (fun x => isGood (callW x)) = some ("C")
    ∧ call_with_fallback callW [("A"), ("B"), ("C")] =
        ([("A"), ("B"), ("C")].takeWhile (fun x => !isGood (callW x)) ++ [("C")],
          Except.ok (("C"), okContent (callW ("C")))) :=
  ⟨by decide,
    (c1_fallback_first_good_or_joined_errors callW [("A"), ("B"), ("C")]).1 ("C") (by decide)⟩

/-- C2: model discovery performs up to 3 attempts; after each failed attempt
it logs the error with wait `2 ^ attempt` (1, 2, 4 time units on the 1st, 2nd,
3rd attempt) and sleeps that long before the next attempt; it raises the
fatal discovery error only after all 3 attempts fail; and a successful call
whose eligible-model list is empty is itself an error inside the attempt. -/
theorem c2_discovery_retry_backoff (oracle : Nat → Except String (List RawModel))
    (e0 e1 e2 : String) (free : List String) (models : List RawModel) (a : Nat) :
    (fetch_attempt oracle 0 = Except.ok free →
      fetch_free_models oracle = ([FetchEvent.httpAttempt 0], Except.ok free))
    ∧ (fetch_attempt oracle 0 = Except.error e0 → fetch_attempt oracle 1 = Except.ok free →
      fetch_free_models oracle =
        ([FetchEvent.httpAttempt 0, FetchEvent.logRetry 1 e0 1, FetchEvent.sleep 1,
          FetchEvent.httpAttempt 1], Except.ok free))
    ∧ (fetch_attempt oracle 0 = Except.error e0 → fetch_attempt oracle 1 = Except.error e1 →
      fetch_attempt oracle 2 = Except.ok free →
      fetch_free_models oracle =
        ([FetchEvent.httpAttempt 0, FetchEvent.logRetry 1 e0 1, FetchEvent.sleep 1,
          FetchEvent.httpAttempt 1, FetchEvent.logRetry 2 e1 2, FetchEvent.sleep 2,
          FetchEvent.httpAttempt 2], Except.ok free))
    ∧ (fetch_attempt oracle 0 = Except.error e0 → fetch_attempt oracle 1 = Except.error e1 →
      fetch_attempt oracle 2 = Except.error e2 →
      fetch_free_models oracle =
        ([FetchEvent.httpAttempt 0, FetchEvent.logRetry 1 e0 1, FetchEvent.sleep 1,
          FetchEvent.httpAttempt 1, FetchEvent.logRetry 2 e1 2, FetchEvent.sleep 2,
          FetchEvent.httpAttempt 2, FetchEvent.logRetry 3 e2 4, FetchEvent.sleep 4],
          Except.error (discoveryExhaustedPrefix ++ e2)))
    ∧ (oracle a = Except.ok models → dedupFree models [] = [] →
      fetch_attempt oracle a = Except.error noFreeModelsMessage) := by
  refine ⟨?_, ?_, ?_, ?_, ?_⟩
  · intro h0
    simp [fetch_free_models, fetch_free_models_go, h0]
  · intro h0 h1
    simp [fetch_free_models, fetch_free_models_go, h0, h1]
  · intro h0 h1 h2
    simp [fetch_free_models, fetch_free_models_go, h0, h1, h2]
  · intro h0 h1 h2
    simp [fetch_free_models, fetch_free_models_go, h0, h1, h2]
  · intro ho hd
    simp [fetch_attempt, ho, hd]

/-- Discovery oracle used as the concrete input of the C2 witness: every
attempt fails with a network error. -/
def oracleW : Nat → Except String (List RawModel) := fun _ => Except.error ("netfail")

/-- Witness for C2 at a concrete oracle whose three attempts all fail. -/
theorem c2_witness :
    fetch_attempt oracleW 0 = Except.error ("netfail")
    ∧ fetch_attempt oracleW 1 = Except.error ("netfail")
    ∧ fetch_attempt oracleW 2 = Except.error ("netfail")
    ∧ fetch_free_models oracleW =
        ([FetchEvent.httpAttempt 0, FetchEvent.logRetry 1 ("netfail") 1, FetchEvent.sleep 1,
          FetchEvent.httpAttempt 1, FetchEvent.logRetry 2 ("netfail") 2, FetchEvent.sleep 2,
          FetchEvent.httpAttempt 2, FetchEvent.logRetry 3 ("netfail") 4, FetchEvent.sleep 4],
          Except.error (discoveryExhaustedPrefix ++ ("netfail"))) :=
  ⟨rfl, rfl, rfl,
    (c2_discovery_retry_backoff oracleW ("netfail") ("netfail") ("netfail") [] [] 0).2.2.2.1
      rfl rfl rfl⟩

/-- C10: invoked with an empty candidate list, `call_with_fallback` makes no
completion call (empty trace) and raises an error whose message is the join
of zero failure reasons, the empty string. -/
theorem c10_empty_candidate_list (call : String → Except String (String × String)) :
    call_with_fallback call [] = ([], Except.error ("")) := rfl

/-- C3: for every non-empty bar sequence, `summarize_klines` returns a
summary whose start price is the first bar's open, end price the last bar's
close, high the maximum of all bar highs, low the minimum of all bar lows,
and base/quote volume the sums of the bar volumes. -/
theorem c3_summarize_klines_fields (symbol : String) (klines : List Kline) (h : klines ≠ []) :
    ∃ s, summarize_klines symbol klines = some s
      ∧ s.start_price = (klines.head h).openPrice
      ∧ s.end_price = (klines.getLast h).closePrice
      ∧ s.high ∈ klines.map Kline.high
      ∧ (∀ x ∈ klines.map Kline.high, x ≤ s.high)
      ∧ s.low ∈ klines.map Kline.low
      ∧ (∀ x ∈ klines.map Kline.low, s.low ≤ x)
      ∧ s.base_volume = (klines.map Kline.baseVolume).sum
      ∧ s.quote_volume = (klines.map Kline.quoteVolume).sum := by
  match klines with
  | k :: rest =>
    refine ⟨_, rfl, rfl, rfl, ?_, ?_, ?_, ?_, rfl, rfl⟩
    · show rest.foldl (fun acc b => max acc b.high) k.high ∈ (k :: rest).map Kline.high
      rw [show rest.foldl (fun acc b => max acc b.high) k.high
            = (rest.map Kline.high).foldl max k.high from (List.foldl_map _ _ _ _).symm]
      simpa using foldl_max_mem (rest.map Kline.high) k.high
    · show ∀ x ∈ (k :: rest).map Kline.high, x ≤ rest.foldl (fun acc b => max acc b.high) k.high
      rw [show rest.foldl (fun acc b => max acc b.high) k.high
            = (rest.map Kline.high).foldl max k.high from (List.foldl_map _ _ _ _).symm]
      intro x hx
      exact le_foldl_max (rest.map Kline.high) k.high x (by simpa using hx)
    · show rest.foldl (fun acc b => min acc b.low) k.low ∈ (k :: rest).map Kline.low
      rw [show rest.foldl (fun acc b => min acc b.low) k.low
            = (rest.map Kline.low).foldl min k.low from (List.foldl_map _ _ _ _).symm]
      simpa using foldl_min_mem (rest.map Kline.low) k.low
    · show ∀ x ∈ (k :: rest).map Kline.low, rest.foldl (fun acc b => min acc b.low) k.low ≤ x
      rw [show rest.foldl (fun acc b => min acc b.low) k.low
            = (rest.map Kline.low).foldl min k.low from (List.foldl_map _ _ _ _).symm]
      intro x hx
      exact foldl_min_le (rest.map Kline.low) k.low x (by simpa using hx)

/-- Bars used as the concrete input of the C3 witness. -/
def klinesW : List Kline :=
  [{ openPrice := 10, high := 15, low := 9, closePrice := 12, baseVolume := 3, quoteVolume := 30 },
   { openPrice := 12, high := 14, low := 8, closePrice := 11, baseVolume := 2, quoteVolume := 20 }]

/-- Witness for C3 at a concrete two-bar sequence. -/
theorem c3_witness :
    klinesW ≠ []
    ∧ ∃ s, summarize_klines ("BTCUSDT") klinesW = some s
      ∧ s.start_price = (klinesW.head (by simp [klinesW])).openPrice
      ∧ s.end_price = (klinesW.getLast (by simp [klinesW])).closePrice
      ∧ s.high ∈ klinesW.map Kline.high
      ∧ (∀ x ∈ klinesW.map Kline.high, x ≤ s.high)
      ∧ s.low ∈ klinesW.map Kline.low
      ∧ (∀ x ∈ klinesW.map Kline.low, s.low ≤ x)
      ∧ s.base_volume = (klinesW.map Kline.baseVolume).sum
      ∧ s.quote_volume = (klinesW.map Kline.quoteVolume).sum :=
  ⟨by simp [klinesW], c3_summarize_klines_fields ("BTCUSDT") klinesW (by simp [klinesW])⟩

/-- C6: for every summary, `change` is the end/start difference and
`change_pct` is exactly 0 at zero start price and the percentage formula
otherwise. -/
theorem c6_change_pct_formula (s : SymbolSummary) :
    s.change = s.end_price - s.start_price
    ∧ (s.start_price = 0 → s.change_pct = 0)
    ∧ (s.start_price ≠ 0 →
        s.change_pct = (s.end_price - s.start_price) / s.start_price * 100) := by
  refine ⟨rfl, ?_, ?_⟩ <;> intro h <;>
    simp [SymbolSummary.change_pct, SymbolSummary.change, h]

/-- Summary record used as the concrete input of the C6 witness. -/
def summaryW : SymbolSummary :=
  { symbol := ("BTCUSDT"), start_price := 2, end_price := 3, high := 3, low := 2,
    base_volume := 1, quote_volume := 5 }

/-- Witness for C6 at a concrete summary with nonzero start price. -/
theorem c6_witness :
    summaryW.start_price ≠ 0
    ∧ summaryW.change_pct = (summaryW.end_price - summaryW.start_price) / summaryW.start_price * 100 :=
  ⟨by decide, (c6_change_pct_formula summaryW).2.2 (by decide)⟩

/-- Malformed bar (its recorded low exceeds its recorded high) showing that
`summarize_klines` does not itself guarantee `high ≥ low`. -/
def badBar : Kline :=
  { openPrice := 1, high := 1, low := 2, closePrice := 1, baseVolume := 0, quoteVolume := 0 }

/-- Counterexample to C7 as stated: on the non-empty bar sequence `[badBar]`
the produced summary has `high < low`, because the code takes max-of-highs
and min-of-lows without validating the per-bar `low ≤ high` relationship. -/
theorem c7_counterexample :
    ∃ s, summarize_klines ("BTCUSDT") [badBar] = some s ∧ s.high < s.low :=
  ⟨_, rfl, by decide⟩

/-- C7 (amended): for every non-empty bar sequence in which each bar is
well-formed (its low does not exceed its high), the summary produced by
`summarize_klines` satisfies `high ≥ low`. -/
theorem c7_high_ge_low_of_wellformed_bars (symbol : String) (klines : List Kline)
    (h : klines ≠ []) (hw : ∀ k ∈ klines, k.low ≤ k.high) :
    ∃ s, summarize_klines symbol klines = some s ∧ s.low ≤ s.high := by
  match klines with
  | k :: rest =>
    refine ⟨_, rfl, ?_⟩
    show rest.foldl (fun acc b => min acc b.low) k.low
      ≤ rest.foldl (fun acc b => max acc b.high) k.high
    rw [show rest.foldl (fun acc b => min acc b.low) k.low
          = (rest.map Kline.low).foldl min k.low from (List.foldl_map _ _ _ _).symm,
        show rest.foldl (fun acc b => max acc b.high) k.high
          = (rest.map Kline.high).foldl max k.high from (List.foldl_map _ _ _ _).symm]
    calc (rest.map Kline.low).foldl min k.low
        ≤ k.low := foldl_min_le (rest.map Kline.low) k.low k.low (List.mem_cons_self _ _)
      _ ≤ k.high := hw k (List.mem_cons_self _ _)
      _ ≤ (rest.map Kline.high).foldl max k.high :=
          le_foldl_max (rest.map Kline.high) k.high k.high (List.mem_cons_self _ _)

/-- Witness for the amended C7 at a concrete well-formed two-bar sequence. -/
theorem c7_witness :
    klinesW ≠ [] ∧ (∀ k ∈ klinesW, k.low ≤ k.high)
    ∧ ∃ s, summarize_klines ("ETHUSDT") klinesW = some s ∧ s.low ≤ s.high :=
  ⟨by simp [klinesW], by decide,
    c7_high_ge_low_of_wellformed_bars ("ETHUSDT") klinesW (by simp [klinesW]) (by decide)⟩

/-- C8: with the completion credential absent and the dry-run flag not set,
`main` aborts pre-flight with the configuration error (a raised
`SystemExit` message, hence a nonzero process exit) and an empty event
trace: no snapshot fetch, kline fetch, feed fetch, discovery attempt or
completion call occurs. -/
theorem c8_missing_credential_aborts_preflight (o : Oracles) (a : Args)
    (windowHeader : String) (fmtTime : ℤ → String) (cutoff : ℤ)
    (hkey : a.apiKey = none) (hdry : a.dryRun = false) :
    main_run o a windowHeader fmtTime cutoff = ([], Except.error missingKeyMessage) := by
  simp [main_run, hkey, hdry]

/-- Oracles used as the concrete input of the C8 witness. -/
def oraclesW : Oracles :=
  { snapshot := Except.ok ("snapshot text")
    klines := fun _ => Except.error ("unused")
    feeds := []
    parseDate := fun _ => none
    modelsAttempt := fun _ => Except.error ("unused")
    call := fun _ => Except.error ("unused") }

/-- Arguments used as the concrete input of the C8 witness: no credential,
dry-run unset. -/
def argsW : Args :=
  { apiKey := none, dryRun := false, model := none,
    symbols := [("BTCUSDT"), ("ETHUSDT"), ("BNBUSDT")],
    noUpload := false, noNotify := false, stateHasBark := false, stateHasState := false }

/-- Witness for C8 at concrete oracles and arguments. -/
theorem c8_witness :
    argsW.apiKey = none ∧ argsW.dryRun = false
    ∧ main_run oraclesW argsW ("Window") (fun _ => ("t")) 0
        = ([], Except.error missingKeyMessage) :=
  ⟨rfl, rfl,
    c8_missing_credential_aborts_preflight oraclesW argsW ("Window") (fun _ => ("t")) 0 rfl rfl⟩

/-- C9: prompt composition is pure and deterministic: the formatting
functions and `build_prompt` produce byte-identical strings on identical
inputs (identical snapshot text, market block, summary, news list and
timestamp formatter). -/
theorem c9_prompt_composition_deterministic
    (fmtTime fmtTime' : ℤ → String) (snap snap' mb mb' : String)
    (s s' : SymbolSummary) (items items' : List NewsItem)
    (hf : fmtTime = fmtTime') (hs : snap = snap') (hm : mb = mb') (hsum : s = s')
    (hi : items = items') :
    build_prompt snap mb = build_prompt snap' mb'
    ∧ format_symbol_summary s = format_symbol_summary s'
    ∧ format_news fmtTime items = format_news fmtTime' items' := by
  subst hf hs hm hsum hi
  exact ⟨rfl, rfl, rfl⟩

/-- News item used as the concrete input of the C9 witness. -/
def newsItemW : NewsItem :=
  { source := ("Coindesk"), title := ("BTC rallies"), link := ("https://x"), published := 7 }

/-- Witness for C9 at concrete identical inputs. -/
theorem c9_witness :
    build_prompt ("snap") ("market") = build_prompt ("snap") ("market")
    ∧ format_symbol_summary summaryW = format_symbol_summary summaryW
    ∧ format_news (fun _ => ("t")) [newsItemW] = format_news (fun _ => ("t")) [newsItemW] :=
  c9_prompt_composition_deterministic (fun _ => ("t")) (fun _ => ("t"))
    ("snap") ("snap") ("market") ("market") summaryW summaryW [newsItemW] [newsItemW]
    rfl rfl rfl rfl rfl

/-- C4: a parsed feed item is retained by the news collector if and only if
its publish date parses, its published time normalized to UTC is ≥ the
cutoff, and the lowercased title-plus-description contains a tracked keyword;
consequently every item in the output of `fetch_news` is ≥ the cutoff and
stems from a channel item that passed exactly this filter (so an item
strictly before the cutoff, or matching no keyword, is never in the
output). -/
theorem c4_news_retention_filter (pd : String → Option ParsedDate)
    (feeds : List (String × FeedResult)) (cutoff : ℤ) (src : String)
    (item : RawItem) (n : NewsItem) :
    ((processItem pd src cutoff item).isSome = true ↔
      ∃ p, pd (strTrim (item.pubDate.getD (""))) = some p
        ∧ cutoff ≤ normalizeUtc p ∧ itemMatchesKeyword item = true)
    ∧ (n ∈ fetch_news pd feeds cutoff →
      cutoff ≤ n.published
        ∧ ∃ src2 its, (src2, FeedResult.channel its) ∈ feeds
            ∧ ∃ it ∈ its, processItem pd src2 cutoff it = some n) := by
  constructor
  · exact processItem_isSome_iff pd src cutoff item
  · intro hmem
    have hcol : n ∈ collect_news pd cutoff feeds :=
      (mem_sortDesc n (collect_news pd cutoff feeds)).mp hmem
    obtain ⟨src2, its, hfeed, it, hit, hpi⟩ := (mem_collect_news pd cutoff feeds n).mp hcol
    exact ⟨processItem_cutoff_le pd src2 cutoff it n hpi, src2, its, hfeed, it, hit, hpi⟩

/-- Raw feed item used as the concrete input of the C4 witness. -/
def rawItemW : RawItem :=
  { title := some (" BTC rallies "), link := some ("https://x"),
    pubDate := some ("Mon, 01 Jan 2024 00:00:00 GMT"), description := none }

/-- Date-parser oracle used as the concrete input of the C4 witness: every
text parses to local instant 100 with no timezone. -/
def parseDateW : String → Option ParsedDate := fun _ => some { localTime := 100, tzOffset := none }

/-- Feed list used as the concrete input of the C4 witness. -/
def feedsW : List (String × FeedResult) := [(("Coindesk"), FeedResult.channel [rawItemW])]

/-- News item produced from `rawItemW` by the collector. -/
def newsItemW2 : NewsItem :=
  { source := ("Coindesk"), title := ("BTC rallies"), link := ("https://x"), published := 100 }

/-- Witness for C4 at a concrete feed containing one matching item. -/
theorem c4_witness :
    newsItemW2 ∈ fetch_news parseDateW feedsW 50
    ∧ (50 ≤ newsItemW2.published
        ∧ ∃ src2 its, (src2, FeedResult.channel its) ∈ feedsW
            ∧ ∃ it ∈ its, processItem parseDateW src2 50 it = some newsItemW2) :=
  ⟨by decide,
    (c4_news_retention_filter parseDateW feedsW 50 ("Coindesk") rawItemW newsItemW2).2 (by decide)⟩

/-- C5: the list returned by the news collector is sorted by published time
in descending order, and items with equal published times keep their original
feed-encounter order (the order they have in `collect_news`): the sort is
stable. -/
theorem c5_news_sorted_descending_stable (pd : String → Option ParsedDate)
    (feeds : List (String × FeedResult)) (cutoff : ℤ) :
    (fetch_news pd feeds cutoff).Pairwise (fun a b => b.published ≤ a.published)
    ∧ ∀ t : ℤ, (fetch_news pd feeds cutoff).filter (fun n => n.published == t)
        = (collect_news pd cutoff feeds).filter (fun n => n.published == t) :=
  ⟨sortDesc_sorted (collect_news pd cutoff feeds),
    fun t => filter_sortDesc t (collect_news pd cutoff feeds)⟩
